import Mathlib

/-!
Verification of the matchify application (src/main.py): a shallow embedding of
its document-extraction cache, analysis prompt construction, and chat
conversation log, followed by theorems settling the specification claims.

Modelling conventions:
* File contents are byte lists (`Content`).
* External collaborators (the md5 digest, the PDF page extractor and the
  remote generation model) are oracle parameters; a `.error e` value models a
  raised Python exception carrying message `e`.  The collaborator oracles are
  functions of the content, matching the spec assumption that extraction is
  deterministic for identical input.
* `st.cache_data` on `extract_text_from_pdf` memoizes the function's return
  value keyed by a hash of its argument (for an uploaded file, a hash of the
  file's bytes), and replays the `st` display elements the body emitted.  The
  body's `try/except` catches every exception internally and returns
  `(None, None)`, so the decorator always sees a normal return and stores it.
  The cache is modelled as an association list from content to the stored
  output (value plus replayed display events).
* Display side effects (`st.error`, `st.text_area`, `st.markdown`) are
  collected in a `UIEvent` list; generation requests are collected as the
  list of prompt strings sent to the model.
-/

namespace Matchify

/-- Raw byte sequence of an uploaded file. -/
abbrev Content := List Nat

/-- User-visible display effects emitted while handling one action. -/
inductive UIEvent where
  | uiError (msg : String)
  | uiTextArea (label : String) (body : String)
  | uiMarkdown (body : String)
  deriving DecidableEq

/-- Role of a conversation turn, `entry["role"]` in the source. -/
inductive Role where
  | user
  | bot
  deriving DecidableEq

/-- The string the source stores for each role ("User" / "Bot"). -/
def Role.render : Role → String
  | .user => "User"
  | .bot => "Bot"

/-- One entry of `st.session_state.conversation_history`. -/
structure Turn where
  role : Role
  message : String
  deriving DecidableEq

/-- The external collaborators used inside `extract_text_from_pdf`:
`md5 c` models `hashlib.md5(uploaded_file.getvalue()).hexdigest()` and
`pageTexts c` models `[page.extract_text() for page in PdfReader(f).pages]`;
a `.error e` result models a raised exception with message `e`. -/
structure PdfWorld where
  md5 : Content → Except String String
  pageTexts : Content → Except String (List String)

/-- Result of one run of the body of `extract_text_from_pdf`: the returned
pair (`text`, `fileHash`) plus the display events the body emitted. -/
structure ExtractOut where
  text : Option String
  fileHash : Option String
  events : List UIEvent
  deriving DecidableEq

/-- The body of `extract_text_from_pdf` (the `try/except` block, run on a
cache miss): compute the md5 fingerprint, parse the pages, join them; any
exception is caught, reported via `st.error`, and `(None, None)` returned. -/
def extractBody (w : PdfWorld) (c : Content) : ExtractOut :=
  match w.md5 c with
  | .error e => ⟨none, none, [.uiError ("Error reading PDF: " ++ e)]⟩
  | .ok h =>
    match w.pageTexts c with
    | .error e => ⟨none, none, [.uiError ("Error reading PDF: " ++ e)]⟩
    | .ok pages => ⟨some (String.join pages), some h, []⟩

/-- The `st.cache_data` store: stored return values (with their replayed
display elements) keyed by the argument file's byte content. -/
abbrev Cache := List (Content × ExtractOut)

/-- Cache lookup by content key. -/
def cacheLookup (st : Cache) (c : Content) : Option ExtractOut :=
  (st.find? (fun p => p.1 == c)).map Prod.snd

/-- Result of one call of the cached `extract_text_from_pdf`: the output
seen by the caller, the cache afterwards, and how many times the underlying
body (the extraction attempt) actually ran (0 on a hit, 1 on a miss). -/
structure ExtractCall where
  out : ExtractOut
  cache : Cache
  bodyRuns : Nat

/-- `extract_text_from_pdf` as decorated with `@st.cache_data`: on a hit the
stored return value is produced (and its display elements replayed) without
running the body; on a miss the body runs once and its return value —
including the `(None, None)` produced by the `except` branch — is stored. -/
def extract_text_from_pdf (w : PdfWorld) (st : Cache) (c : Content) : ExtractCall :=
  match cacheLookup st c with
  | some out => ⟨out, st, 0⟩
  | none =>
    let out := extractBody w c
    ⟨out, (c, out) :: st, 1⟩

/-- State accumulated by the per-file loop of `generate_text`. -/
structure ScanOut where
  cache : Cache
  events : List UIEvent
  combined : String
  fileHashes : List (Option String)

/-- The loop of `generate_text`: for each uploaded file call the cached
extractor; when the returned text is truthy (present and nonempty) append
`text + "\n\n"` to `combined_pdf_text` and record the file hash. -/
def processFiles (w : PdfWorld) : Cache → List Content → ScanOut
  | st, [] => ⟨st, [], "", []⟩
  | st, c :: cs =>
    let r := extract_text_from_pdf w st c
    let rest := processFiles w r.cache cs
    match r.out.text with
    | some t =>
      if t = "" then ⟨rest.cache, r.out.events ++ rest.events, rest.combined, rest.fileHashes⟩
      else ⟨rest.cache, r.out.events ++ rest.events, (t ++ "\n\n") ++ rest.combined,
            r.out.fileHash :: rest.fileHashes⟩
    | none => ⟨rest.cache, r.out.events ++ rest.events, rest.combined, rest.fileHashes⟩

/-- The fixed instruction part of the analysis prompt (the literal from the
source, up to the job description). -/
def promptHeader : String :=
  "Assess candidate fit for the job description. Consider substitutes for skills, experience, match percentage in tabular form:\n\n"
  ++ "Skills: Match or equivalent technologies.\n"
  ++ "Experience: Relevance to key responsibilities.\n"
  ++ "Fit: Suitability based on experience and skills.\n\n"

/-- The full analysis prompt string built in `generate_text`. -/
def buildPrompt (job_description combined : String) : String :=
  promptHeader ++ "Job Description:\n" ++ job_description
    ++ "\n\nResume Content:\n" ++ combined

/-- Result of `generate_text` (and of the Analyze click handler): the cache
afterwards, the display events, and the prompts sent to the generation
collaborator. -/
structure AnalysisOut where
  cache : Cache
  events : List UIEvent
  genPrompts : List String

/-- `generate_text`: extract and combine the uploaded files' texts; only if
the combined text is nonempty, display it, build the prompt, and send it to
the generation collaborator, rendering the response.  (A generation failure
here would propagate uncaught, so the model call is a total oracle.) -/
def generate_text (w : PdfWorld) (gen : String → String) (st : Cache)
    (uploaded_files : List Content) (job_description : String) : AnalysisOut :=
  let scan := processFiles w st uploaded_files
  if scan.combined = "" then ⟨scan.cache, scan.events, []⟩
  else
    let prompt := buildPrompt job_description scan.combined
    ⟨scan.cache,
     scan.events ++ [.uiTextArea ("Extracted Text") scan.combined, .uiMarkdown (gen prompt)],
     [prompt]⟩

/-- The Analyze button handler: with no uploaded files it shows an error and
does nothing else; otherwise it runs `generate_text`. -/
def analyzeClick (w : PdfWorld) (gen : String → String) (st : Cache)
    (uploaded_files : List Content) (job_description : String) : AnalysisOut :=
  if uploaded_files.isEmpty then
    ⟨st, [.uiError ("Please upload at least one PDF file.")], []⟩
  else generate_text w gen st uploaded_files job_description

/-- Rendering of one history entry, `f"{entry['role']}: {entry['message']}"`. -/
def fmtTurn (t : Turn) : String := t.role.render ++ ": " ++ t.message

/-- `"\n".join(...)` over the formatted history: the conversation context
string built in `chatbot`. -/
def renderContext (h : List Turn) : String :=
  String.intercalate "\n" (h.map fmtTurn)

/-- An apostrophe character, kept out of string literals. -/
def apos : String := String.singleton (Char.ofNat 39)

/-- The fixed fallback reply returned when the chat generation call fails. -/
def fallbackMessage : String :=
  "Sorry, I couldn" ++ apos ++ "t process that request."

/-- Result of one `chatbot` call: the conversation history afterwards, the
returned reply, and the display events. -/
structure ChatOut where
  history : List Turn
  reply : String
  events : List UIEvent

/-- `chatbot`: append the user turn, build the prompt from the full history,
call the generation collaborator; on success strip and append the bot reply
and return it; on an exception report it and return the fixed fallback,
appending no bot turn. -/
def chatbot (gen : String → Except String String) (history : List Turn)
    (user_input : String) : ChatOut :=
  let history := history ++ [⟨Role.user, user_input⟩]
  let prompt := renderContext history ++ "\nBot:"
  match gen prompt with
  | .ok raw =>
    let bot_response := raw.trim
    ⟨history ++ [⟨Role.bot, bot_response⟩], bot_response, []⟩
  | .error e =>
    ⟨history, fallbackMessage, [.uiError ("Error with chatbot: " ++ e)]⟩

/-- Conversation-log states reachable in a session: the log starts empty
(`conversation_history` initialized to `[]`) and the only transition is one
`chatbot` call, with an arbitrary collaborator outcome at each step. -/
inductive Reachable : List Turn → Prop where
  | init : Reachable []
  | step (gen : String → Except String String) (input : String) (h : List Turn) :
      Reachable h → Reachable (chatbot gen h input).history

/-- A cache state is consistent with the oracle world when every stored
entry is what the body returns for its key — true of every cache a session
can build, since the collaborators are deterministic in the content. -/
def CacheConsistent (w : PdfWorld) (st : Cache) : Prop :=
  ∀ p ∈ st, p.2 = extractBody w p.1

/-- The texts of the successfully extracted documents (present and nonempty
extraction results), in upload order: exactly the texts `generate_text`
accumulates into `combined_pdf_text`. -/
def successTexts (w : PdfWorld) (cs : List Content) : List String :=
  cs.filterMap (fun c =>
    match (extractBody w c).text with
    | some t => if t = "" then none else some t
    | none => none)

/-- Concatenation of a list of texts each terminated by a blank line: the
shape `combined_pdf_text` takes. -/
def joinTerminated : List String → String
  | [] => ""
  | t :: ts => t ++ "\n\n" ++ joinTerminated ts

/-- Every bot turn in the log has some earlier user turn. -/
def BotPreceded (l : List Turn) : Prop :=
  ∀ i, ∀ hi : i < l.length, (l.get ⟨i, hi⟩).role = Role.bot →
    ∃ j, ∃ hj : j < l.length, j < i ∧ (l.get ⟨j, hj⟩).role = Role.user

/-- Concrete oracle whose PDF parser always raises: the failure path. -/
def badWorld : PdfWorld where
  md5 := fun _ => .ok ("d41d8cd98f00b204e9800998ecf8427e")
  pageTexts := fun _ => .error ("EOF marker not found")

/-- Concrete oracle extracting one page of text from every file. -/
def goodWorld : PdfWorld where
  md5 := fun _ => .ok ("d41d8cd98f00b204e9800998ecf8427e")
  pageTexts := fun c => .ok (if c = [1] then ["alpha"] else ["beta"])

/-- Concrete oracle under which file [0] fails to parse and any other file
extracts one page. -/
def mixedWorld : PdfWorld where
  md5 := fun _ => .ok ("d41d8cd98f00b204e9800998ecf8427e")
  pageTexts := fun c => if c = [0] then .error ("broken") else .ok (["beta"])

/-- A generation collaborator that always raises. -/
def genFail : String → Except String String := fun _ => .error ("boom")

/-- A generation collaborator that always answers. -/
def genOk : String → Except String String := fun _ => .ok ("hello")

/-- A total generation collaborator for the analysis page. -/
def genConst : String → String := fun _ => "analysis"

/-- One body run is either a full success emitting no display event, or the
caught-exception shape: both components absent plus one reported error. -/
theorem extractBody_cases (w : PdfWorld) (c : Content) :
    (∃ t fh, extractBody w c = ⟨some t, some fh, []⟩) ∨
    (∃ e, extractBody w c = ⟨none, none, [.uiError ("Error reading PDF: " ++ e)]⟩) := by
  rcases hm : w.md5 c with e | hsh
  · exact Or.inr ⟨e, by simp [extractBody, hm]⟩
  · rcases hp : w.pageTexts c with e | pages
    · exact Or.inr ⟨e, by simp [extractBody, hm, hp]⟩
    · exact Or.inl ⟨String.join pages, hsh, by simp [extractBody, hm, hp]⟩

/-- A body run with absent text is exactly the caught-exception shape. -/
theorem extractBody_of_text_none {w : PdfWorld} {c : Content}
    (h : (extractBody w c).text = none) :
    ∃ e, extractBody w c = ⟨none, none, [.uiError ("Error reading PDF: " ++ e)]⟩ := by
  rcases extractBody_cases w c with ⟨t, fh, hb⟩ | he
  · rw [hb] at h
    simp at h
  · exact he

/-- Looking up the key just inserted finds the inserted value. -/
theorem cacheLookup_insert_self (st : Cache) (c : Content) (out : ExtractOut) :
    cacheLookup ((c, out) :: st) c = some out := by
  simp [cacheLookup, List.find?]

/-- In a consistent cache, any stored value for a key is the body's output. -/
theorem cacheLookup_consistent {w : PdfWorld} {st : Cache} {c : Content} {out : ExtractOut}
    (h : CacheConsistent w st) (hl : cacheLookup st c = some out) :
    out = extractBody w c := by
  unfold cacheLookup at hl
  rcases Option.map_eq_some'.mp hl with ⟨p, hfind, hsnd⟩
  have hmem := List.mem_of_find?_eq_some hfind
  have hb := List.find?_some hfind
  have hkey : p.1 = c := by simpa using hb
  rw [← hsnd, h p hmem, hkey]

/-- Under a consistent cache, a cached-extractor call returns exactly the
body's output (hit or miss). -/
theorem extract_out_eq {w : PdfWorld} {st : Cache} {c : Content}
    (h : CacheConsistent w st) :
    (extract_text_from_pdf w st c).out = extractBody w c := by
  unfold extract_text_from_pdf
  rcases hl : cacheLookup st c with _ | out
  · rfl
  · exact cacheLookup_consistent h hl

/-- A cached-extractor call preserves cache consistency. -/
theorem extract_cache_consistent {w : PdfWorld} {st : Cache} {c : Content}
    (h : CacheConsistent w st) :
    CacheConsistent w (extract_text_from_pdf w st c).cache := by
  unfold extract_text_from_pdf
  rcases hl : cacheLookup st c with _ | out
  · intro p hp
    rcases List.mem_cons.mp hp with rfl | hp
    · rfl
    · exact h p hp
  · exact h

/-- A cached-extractor call runs the body at most once. -/
theorem extract_bodyRuns_le (w : PdfWorld) (st : Cache) (c : Content) :
    (extract_text_from_pdf w st c).bodyRuns ≤ 1 := by
  unfold extract_text_from_pdf
  rcases hl : cacheLookup st c with _ | out
  · exact Nat.le_refl 1
  · exact Nat.zero_le 1

/-- A hit returns the stored value, leaves the cache unchanged and does not
run the body. -/
theorem extract_hit {w : PdfWorld} {st : Cache} {c : Content} {out : ExtractOut}
    (hl : cacheLookup st c = some out) :
    extract_text_from_pdf w st c = ⟨out, st, 0⟩ := by
  unfold extract_text_from_pdf
  rw [hl]

/-- A miss runs the body once and stores its full output. -/
theorem extract_miss {w : PdfWorld} {st : Cache} {c : Content}
    (hl : cacheLookup st c = none) :
    extract_text_from_pdf w st c
      = ⟨extractBody w c, (c, extractBody w c) :: st, 1⟩ := by
  unfold extract_text_from_pdf
  rw [hl]

/-- After any cached-extractor call, the key maps to the returned output. -/
theorem cacheLookup_after (w : PdfWorld) (st : Cache) (c : Content) :
    cacheLookup (extract_text_from_pdf w st c).cache c
      = some (extract_text_from_pdf w st c).out := by
  rcases hl : cacheLookup st c with _ | out
  · rw [extract_miss hl]
    exact cacheLookup_insert_self st c _
  · rw [extract_hit hl]
    exact hl

/-- The accumulator of `String.intercalate.go` factors out on the left. -/
theorem intercalate_go_append (s p : String) :
    ∀ (l : List String) (q : String),
      String.intercalate.go (p ++ q) s l = p ++ String.intercalate.go q s l := by
  intro l
  induction l with
  | nil => intro q; rfl
  | cons a as ih =>
    intro q
    have h1 : p ++ q ++ s ++ a = p ++ (q ++ s ++ a) := by
      rw [String.append_assoc, String.append_assoc, String.append_assoc]
    calc String.intercalate.go (p ++ q) s (a :: as)
        = String.intercalate.go (p ++ q ++ s ++ a) s as := rfl
      _ = String.intercalate.go (p ++ (q ++ s ++ a)) s as := by rw [h1]
      _ = p ++ String.intercalate.go (q ++ s ++ a) s as := ih (q ++ s ++ a)
      _ = p ++ String.intercalate.go q s (a :: as) := rfl

/-- Unfolding `String.intercalate` one separator at a time. -/
theorem intercalate_cons_cons (s a b : String) (l : List String) :
    String.intercalate s (a :: b :: l) = a ++ s ++ String.intercalate s (b :: l) := by
  have h := intercalate_go_append s (a ++ s) l b
  calc String.intercalate s (a :: b :: l)
      = String.intercalate.go (a ++ s ++ b) s l := rfl
    _ = (a ++ s) ++ String.intercalate.go b s l := h
    _ = a ++ s ++ String.intercalate s (b :: l) := rfl

/-- On a nonempty list, terminated concatenation is blank-line-separated
concatenation followed by one trailing blank line. -/
theorem joinTerminated_eq_intercalate :
    ∀ ts : List String, ts ≠ [] →
      joinTerminated ts = String.intercalate "\n\n" ts ++ "\n\n" := by
  intro ts
  induction ts with
  | nil => intro h; exact absurd rfl h
  | cons t ts ih =>
    intro _
    cases ts with
    | nil =>
      show t ++ "\n\n" ++ joinTerminated [] = String.intercalate "\n\n" [t] ++ "\n\n"
      rw [joinTerminated]
      simp
      rfl
    | cons t2 ts2 =>
      rw [joinTerminated, ih (by simp), intercalate_cons_cons]
      rw [← String.append_assoc]

/-- Terminated concatenation of a nonempty list is a nonempty string. -/
theorem joinTerminated_ne_empty (t : String) (ts : List String) :
    joinTerminated (t :: ts) ≠ "" := by
  intro h
  have hlen := congrArg String.length h
  rw [joinTerminated] at hlen
  have h2 : ("\n\n" : String).length = 2 := rfl
  rw [String.length_append, String.length_append, h2] at hlen
  simp at hlen

/-- Loop step when extraction returned no text. -/
theorem processFiles_cons_none {w : PdfWorld} {st : Cache} {c : Content} (cs : List Content)
    (ht : (extract_text_from_pdf w st c).out.text = none) :
    processFiles w st (c :: cs) =
      ⟨(processFiles w (extract_text_from_pdf w st c).cache cs).cache,
       (extract_text_from_pdf w st c).out.events
         ++ (processFiles w (extract_text_from_pdf w st c).cache cs).events,
       (processFiles w (extract_text_from_pdf w st c).cache cs).combined,
       (processFiles w (extract_text_from_pdf w st c).cache cs).fileHashes⟩ := by
  rw [processFiles, ht]

/-- Loop step when extraction returned the empty text (falsy in the source,
so skipped exactly like a failure). -/
theorem processFiles_cons_empty {w : PdfWorld} {st : Cache} {c : Content} (cs : List Content)
    (ht : (extract_text_from_pdf w st c).out.text = some "") :
    processFiles w st (c :: cs) =
      ⟨(processFiles w (extract_text_from_pdf w st c).cache cs).cache,
       (extract_text_from_pdf w st c).out.events
         ++ (processFiles w (extract_text_from_pdf w st c).cache cs).events,
       (processFiles w (extract_text_from_pdf w st c).cache cs).combined,
       (processFiles w (extract_text_from_pdf w st c).cache cs).fileHashes⟩ := by
  rw [processFiles, ht]
  simp

/-- Loop step when extraction returned a nonempty text: it is accumulated. -/
theorem processFiles_cons_text {w : PdfWorld} {st : Cache} {c : Content} (cs : List Content)
    {t : String} (ht : (extract_text_from_pdf w st c).out.text = some t) (hne : t ≠ "") :
    processFiles w st (c :: cs) =
      ⟨(processFiles w (extract_text_from_pdf w st c).cache cs).cache,
       (extract_text_from_pdf w st c).out.events
         ++ (processFiles w (extract_text_from_pdf w st c).cache cs).events,
       (t ++ "\n\n") ++ (processFiles w (extract_text_from_pdf w st c).cache cs).combined,
       (extract_text_from_pdf w st c).out.fileHash
         :: (processFiles w (extract_text_from_pdf w st c).cache cs).fileHashes⟩ := by
  rw [processFiles, ht]
  simp [hne]

/-- `successTexts` step when the body yields no text. -/
theorem successTexts_cons_none {w : PdfWorld} {c : Content} (cs : List Content)
    (ht : (extractBody w c).text = none) :
    successTexts w (c :: cs) = successTexts w cs := by
  simp [successTexts, ht]

/-- `successTexts` step when the body yields the empty text. -/
theorem successTexts_cons_empty {w : PdfWorld} {c : Content} (cs : List Content)
    (ht : (extractBody w c).text = some "") :
    successTexts w (c :: cs) = successTexts w cs := by
  simp [successTexts, ht]

/-- `successTexts` step when the body yields a nonempty text. -/
theorem successTexts_cons_text {w : PdfWorld} {c : Content} (cs : List Content)
    {t : String} (ht : (extractBody w c).text = some t) (hne : t ≠ "") :
    successTexts w (c :: cs) = t :: successTexts w cs := by
  simp [successTexts, ht, hne]

/-- The body's display events are error reports only. -/
theorem extractBody_events_errors (w : PdfWorld) (c : Content) :
    ∀ ev ∈ (extractBody w c).events, ∃ m, ev = UIEvent.uiError m := by
  rcases extractBody_cases w c with ⟨t, fh, hb⟩ | ⟨e, hb⟩ <;> rw [hb] <;> intro ev hev
  · simp at hev
  · simp at hev
    exact ⟨_, hev⟩

/-- The per-file loop under a consistent cache: `combined_pdf_text` is the
terminated concatenation of the successfully extracted nonempty texts in
upload order, the cache stays consistent, and every display event emitted is
an error report. -/
theorem processFiles_spec (w : PdfWorld) :
    ∀ (cs : List Content) (st : Cache), CacheConsistent w st →
      (processFiles w st cs).combined = joinTerminated (successTexts w cs)
      ∧ CacheConsistent w (processFiles w st cs).cache
      ∧ ∀ ev ∈ (processFiles w st cs).events, ∃ m, ev = UIEvent.uiError m := by
  intro cs
  induction cs with
  | nil =>
    intro st h
    refine ⟨rfl, h, ?_⟩
    intro ev hev
    simp [processFiles] at hev
  | cons c cs ih =>
    intro st h
    have hout : (extract_text_from_pdf w st c).out = extractBody w c := extract_out_eq h
    have hk : CacheConsistent w (extract_text_from_pdf w st c).cache :=
      extract_cache_consistent h
    obtain ⟨ihc, ihk, ihe⟩ := ih (extract_text_from_pdf w st c).cache hk
    have hevs : ∀ ev ∈ (extract_text_from_pdf w st c).out.events, ∃ m, ev = UIEvent.uiError m := by
      rw [hout]
      exact extractBody_events_errors w c
    have hevapp : ∀ ev ∈ (extract_text_from_pdf w st c).out.events
        ++ (processFiles w (extract_text_from_pdf w st c).cache cs).events,
        ∃ m, ev = UIEvent.uiError m := by
      intro ev hev
      rcases List.mem_append.mp hev with h1 | h2
      · exact hevs ev h1
      · exact ihe ev h2
    rcases ht : (extract_text_from_pdf w st c).out.text with _ | t
    · have htb : (extractBody w c).text = none := by rw [← hout]; exact ht
      rw [processFiles_cons_none cs ht, successTexts_cons_none cs htb]
      exact ⟨ihc, ihk, hevapp⟩
    · by_cases hte : t = ""
      · subst hte
        have htb : (extractBody w c).text = some "" := by rw [← hout]; exact ht
        rw [processFiles_cons_empty cs ht, successTexts_cons_empty cs htb]
        exact ⟨ihc, ihk, hevapp⟩
      · have htb : (extractBody w c).text = some t := by rw [← hout]; exact ht
        rw [processFiles_cons_text cs ht hte, successTexts_cons_text cs htb hte]
        refine ⟨?_, ihk, hevapp⟩
        rw [joinTerminated, ihc]

/-- The empty cache is trivially consistent. -/
theorem cacheConsistent_nil (w : PdfWorld) : CacheConsistent w [] := by
  intro p hp
  exact absurd hp (List.not_mem_nil p)

/-- Under a consistent cache, when some upload extracts nonempty text the
analysis sends exactly one prompt, built from the job description and the
terminated concatenation of the extracted texts. -/
theorem generate_text_call (w : PdfWorld) (gen : String → String) (st : Cache)
    (files : List Content) (jd : String) (h : CacheConsistent w st)
    (hne : successTexts w files ≠ []) :
    (generate_text w gen st files jd).genPrompts
      = [buildPrompt jd (joinTerminated (successTexts w files))] := by
  obtain ⟨hc, _, _⟩ := processFiles_spec w files st h
  obtain ⟨t, ts, hts⟩ := List.exists_cons_of_ne_nil hne
  simp only [generate_text]
  rw [hc, hts]
  rw [if_neg (joinTerminated_ne_empty t ts)]

/-- Under a consistent cache, when no upload extracts nonempty text the
analysis sends no prompt and emits only the loop's display events. -/
theorem generate_text_no_call (w : PdfWorld) (gen : String → String) (st : Cache)
    (files : List Content) (jd : String) (h : CacheConsistent w st)
    (hall : successTexts w files = []) :
    (generate_text w gen st files jd).genPrompts = []
    ∧ (generate_text w gen st files jd).events = (processFiles w st files).events := by
  obtain ⟨hc, _, _⟩ := processFiles_spec w files st h
  simp only [generate_text]
  rw [hc, hall]
  simp [joinTerminated]

/-- Appending one line: rendering a log extended by one turn appends exactly
that turn's line after a newline. -/
theorem renderContext_append_one :
    ∀ (h : List Turn) (t : Turn), h ≠ [] →
      renderContext (h ++ [t]) = renderContext h ++ "\n" ++ fmtTurn t := by
  intro h
  induction h with
  | nil => intro t hne; exact absurd rfl hne
  | cons a as ih =>
    intro t _
    cases as with
    | nil =>
      show String.intercalate "\n" [fmtTurn a, fmtTurn t]
        = renderContext [a] ++ "\n" ++ fmtTurn t
      rw [intercalate_cons_cons]
      rfl
    | cons b bs =>
      have h1 : renderContext ((a :: b :: bs) ++ [t])
          = fmtTurn a ++ "\n" ++ renderContext ((b :: bs) ++ [t]) := by
        show String.intercalate "\n" (List.map fmtTurn ((a :: b :: bs) ++ [t])) = _
        have hm : List.map fmtTurn ((a :: b :: bs) ++ [t])
            = fmtTurn a :: fmtTurn b :: List.map fmtTurn (bs ++ [t]) := by simp
        rw [hm, intercalate_cons_cons]
        rfl
      have h2 : renderContext (a :: b :: bs)
          = fmtTurn a ++ "\n" ++ renderContext (b :: bs) := by
        show String.intercalate "\n" (List.map fmtTurn (a :: b :: bs)) = _
        rw [List.map_cons, List.map_cons, intercalate_cons_cons]
        rfl
      rw [h1, ih t (by simp), h2]
      simp [String.append_assoc]

/-- Appending a user turn preserves the precedence invariant. -/
theorem botPreceded_append_user (l : List Turn) (m : String) (h : BotPreceded l) :
    BotPreceded (l ++ [⟨Role.user, m⟩]) := by
  intro i hi hbot
  have hlen : (l ++ [(⟨Role.user, m⟩ : Turn)]).length = l.length + 1 := by simp
  by_cases hcase : i < l.length
  · have hget : (l ++ [(⟨Role.user, m⟩ : Turn)]).get ⟨i, hi⟩ = l.get ⟨i, hcase⟩ := by
      rw [List.get_eq_getElem, List.get_eq_getElem]
      exact List.getElem_append_left hcase
    rw [hget] at hbot
    obtain ⟨j, hj, hji, hrole⟩ := h i hcase hbot
    have hj2 : j < (l ++ [(⟨Role.user, m⟩ : Turn)]).length := by rw [hlen]; omega
    refine ⟨j, hj2, hji, ?_⟩
    have : (l ++ [(⟨Role.user, m⟩ : Turn)]).get ⟨j, hj2⟩ = l.get ⟨j, hj⟩ := by
      rw [List.get_eq_getElem, List.get_eq_getElem]
      exact List.getElem_append_left hj
    rw [this]
    exact hrole
  · have hieq : i = l.length := by rw [hlen] at hi; omega
    have : (l ++ [(⟨Role.user, m⟩ : Turn)]).get ⟨i, hi⟩ = ⟨Role.user, m⟩ := by
      rw [List.get_eq_getElem]
      exact List.getElem_concat_length l _ i hieq hi
    rw [this] at hbot
    exact absurd hbot (by simp [Role.render])

/-- Appending a user turn then a bot turn preserves the invariant: the new
bot turn is preceded by the just-appended user turn. -/
theorem botPreceded_append_user_bot (l : List Turn) (m m2 : String) (h : BotPreceded l) :
    BotPreceded (l ++ [⟨Role.user, m⟩, ⟨Role.bot, m2⟩]) := by
  have hsplit : l ++ [(⟨Role.user, m⟩ : Turn), ⟨Role.bot, m2⟩]
      = (l ++ [⟨Role.user, m⟩]) ++ [⟨Role.bot, m2⟩] := by simp
  rw [hsplit]
  intro i hi hbot
  have hu := botPreceded_append_user l m h
  have hlen1 : (l ++ [(⟨Role.user, m⟩ : Turn)]).length = l.length + 1 := by simp
  have hlen2 : ((l ++ [(⟨Role.user, m⟩ : Turn)]) ++ [(⟨Role.bot, m2⟩ : Turn)]).length
      = l.length + 2 := by simp
  by_cases hcase : i < (l ++ [(⟨Role.user, m⟩ : Turn)]).length
  · have hget : ((l ++ [(⟨Role.user, m⟩ : Turn)]) ++ [(⟨Role.bot, m2⟩ : Turn)]).get ⟨i, hi⟩
        = (l ++ [(⟨Role.user, m⟩ : Turn)]).get ⟨i, hcase⟩ := by
      rw [List.get_eq_getElem, List.get_eq_getElem]
      exact List.getElem_append_left hcase
    rw [hget] at hbot
    obtain ⟨j, hj, hji, hrole⟩ := hu i hcase hbot
    have hj2 : j < ((l ++ [(⟨Role.user, m⟩ : Turn)]) ++ [(⟨Role.bot, m2⟩ : Turn)]).length := by
      rw [hlen2]
      rw [hlen1] at hj
      omega
    refine ⟨j, hj2, hji, ?_⟩
    have : ((l ++ [(⟨Role.user, m⟩ : Turn)]) ++ [(⟨Role.bot, m2⟩ : Turn)]).get ⟨j, hj2⟩
        = (l ++ [(⟨Role.user, m⟩ : Turn)]).get ⟨j, hj⟩ := by
      rw [List.get_eq_getElem, List.get_eq_getElem]
      exact List.getElem_append_left hj
    rw [this]
    exact hrole
  · have hieq : i = l.length + 1 := by
      rw [hlen2] at hi
      rw [hlen1] at hcase
      omega
    have hjlt : l.length < ((l ++ [(⟨Role.user, m⟩ : Turn)]) ++ [(⟨Role.bot, m2⟩ : Turn)]).length := by
      rw [hlen2]
      omega
    refine ⟨l.length, hjlt, by omega, ?_⟩
    have : ((l ++ [(⟨Role.user, m⟩ : Turn)]) ++ [(⟨Role.bot, m2⟩ : Turn)]).get ⟨l.length, hjlt⟩
        = ⟨Role.user, m⟩ := by
      rw [List.get_eq_getElem]
      have hl : l.length < (l ++ [(⟨Role.user, m⟩ : Turn)]).length := by rw [hlen1]; omega
      rw [List.getElem_append_left hl]
      exact List.getElem_concat_length l _ l.length rfl hl
    rw [this]

/-- Claim C1, as stated, is false on the code: `@st.cache_data` memoizes the
return value of `extract_text_from_pdf`, and the internal `except` branch
returns `(None, None)` normally, so the failure IS stored.  Concretely:
the first call on file `[0]` under `badWorld` fails (absent pair, one error
report), yet the second call with the same content runs the body zero times
instead of re-attempting extraction. -/
theorem c1_failure_recached_counterexample :
    (extract_text_from_pdf badWorld [] [0]).out.text = none
    ∧ (extract_text_from_pdf badWorld [] [0]).out.events
        = [UIEvent.uiError ("Error reading PDF: EOF marker not found")]
    ∧ (extract_text_from_pdf badWorld
        (extract_text_from_pdf badWorld [] [0]).cache [0]).bodyRuns = 0 := by
  refine ⟨rfl, rfl, rfl⟩

/-- Claim C1 amended: for every file whose extraction fails, the failed call
returns the absent pair `(None, None)` and surfaces a user-visible error
report, but the failure result IS cached: a later call with the same file
content is a cache hit returning the stored failure without re-attempting
extraction. -/
theorem c1_extraction_failure_behavior (w : PdfWorld) (st : Cache) (c : Content)
    (hmiss : cacheLookup st c = none)
    (hfail : (extractBody w c).text = none) :
    ∃ e,
      (extract_text_from_pdf w st c).out
        = ⟨none, none, [UIEvent.uiError ("Error reading PDF: " ++ e)]⟩
      ∧ (extract_text_from_pdf w st c).bodyRuns = 1
      ∧ (extract_text_from_pdf w (extract_text_from_pdf w st c).cache c).bodyRuns = 0
      ∧ (extract_text_from_pdf w (extract_text_from_pdf w st c).cache c).out
          = (extract_text_from_pdf w st c).out := by
  obtain ⟨e, hb⟩ := extractBody_of_text_none hfail
  refine ⟨e, ?_, ?_, ?_, ?_⟩
  · rw [extract_miss hmiss, hb]
  · rw [extract_miss hmiss]
  · rw [extract_hit (cacheLookup_after w st c)]
  · rw [extract_hit (cacheLookup_after w st c)]

/-- Witness for the amended C1 at the concrete failing file `[0]`. -/
theorem c1_extraction_failure_behavior_witness :
    ∃ e,
      (extract_text_from_pdf badWorld [] [0]).out
        = ⟨none, none, [UIEvent.uiError ("Error reading PDF: " ++ e)]⟩
      ∧ (extract_text_from_pdf badWorld [] [0]).bodyRuns = 1
      ∧ (extract_text_from_pdf badWorld
          (extract_text_from_pdf badWorld [] [0]).cache [0]).bodyRuns = 0
      ∧ (extract_text_from_pdf badWorld
          (extract_text_from_pdf badWorld [] [0]).cache [0]).out
          = (extract_text_from_pdf badWorld [] [0]).out :=
  c1_extraction_failure_behavior badWorld [] [0] rfl rfl

/-- Claim C2: uploading byte-identical content twice in a session invokes
the extraction body at most once in total: the second call is a cache hit
that returns the stored output (keyed by the content fingerprint) without
re-running extraction. -/
theorem c2_duplicate_upload_single_extraction (w : PdfWorld) (st : Cache) (c : Content) :
    (extract_text_from_pdf w (extract_text_from_pdf w st c).cache c).bodyRuns = 0
    ∧ (extract_text_from_pdf w (extract_text_from_pdf w st c).cache c).out
        = (extract_text_from_pdf w st c).out
    ∧ (extract_text_from_pdf w (extract_text_from_pdf w st c).cache c).cache
        = (extract_text_from_pdf w st c).cache
    ∧ (extract_text_from_pdf w st c).bodyRuns
        + (extract_text_from_pdf w (extract_text_from_pdf w st c).cache c).bodyRuns ≤ 1 := by
  have h2 := extract_hit (w := w) (cacheLookup_after w st c)
  refine ⟨?_, ?_, ?_, ?_⟩
  · rw [h2]
  · rw [h2]
  · rw [h2]
  · rw [h2]
    have h1 := extract_bodyRuns_le w st c
    simpa using h1

/-- Claim C3: when the chat generation call fails, the conversation log
still gains the user's turn for that attempt, gains no bot turn, and the
fixed fallback message is returned to the caller. -/
theorem c3_chat_generation_failure (gen : String → Except String String)
    (history : List Turn) (input e : String)
    (hfail : gen (renderContext (history ++ [⟨Role.user, input⟩]) ++ "\nBot:")
      = .error e) :
    (chatbot gen history input).history = history ++ [⟨Role.user, input⟩]
    ∧ (chatbot gen history input).reply = fallbackMessage
    ∧ (chatbot gen history input).events
        = [UIEvent.uiError ("Error with chatbot: " ++ e)] := by
  simp only [chatbot]
  rw [hfail]
  exact ⟨rfl, rfl, rfl⟩

/-- Witness for C3 with an always-failing generation collaborator. -/
theorem c3_chat_generation_failure_witness :
    (chatbot genFail [] "hi").history = [] ++ [⟨Role.user, "hi"⟩]
    ∧ (chatbot genFail [] "hi").reply = fallbackMessage
    ∧ (chatbot genFail [] "hi").events
        = [UIEvent.uiError ("Error with chatbot: " ++ "boom")] :=
  c3_chat_generation_failure genFail [] ("hi") ("boom") rfl

/-- Claim C4: the conversation log starts empty, each chat operation only
appends (the old log is an initial segment of the new one), and in every
reachable log every bot turn is preceded by an earlier user turn. -/
theorem c4_log_append_only_and_bot_preceded :
    (∀ (gen : String → Except String String) (h : List Turn) (input : String),
      ∃ tail, (chatbot gen h input).history = h ++ tail)
    ∧ ∀ h, Reachable h → BotPreceded h := by
  constructor
  · intro gen h input
    rcases hg : gen (renderContext (h ++ [⟨Role.user, input⟩]) ++ "\nBot:") with e | raw
    · refine ⟨[⟨Role.user, input⟩], ?_⟩
      simp only [chatbot]
      rw [hg]
    · refine ⟨[⟨Role.user, input⟩, ⟨Role.bot, raw.trim⟩], ?_⟩
      simp only [chatbot]
      rw [hg]
      simp
  · intro h hr
    induction hr with
    | init =>
      intro i hi
      exact absurd hi (by simp)
    | step gen input hprev hr ih =>
      rcases hg : gen (renderContext (hprev ++ [⟨Role.user, input⟩]) ++ "\nBot:")
        with e | raw
      · have hrw : (chatbot gen hprev input).history
            = hprev ++ [⟨Role.user, input⟩] := by
          simp only [chatbot]
          rw [hg]
        rw [hrw]
        exact botPreceded_append_user hprev input ih
      · have hrw : (chatbot gen hprev input).history
            = hprev ++ [⟨Role.user, input⟩, ⟨Role.bot, raw.trim⟩] := by
          simp only [chatbot]
          rw [hg]
          simp
        rw [hrw]
        exact botPreceded_append_user_bot hprev input raw.trim ih

/-- Witness for C4 at the concrete reachable two-turn log. -/
theorem c4_log_append_only_and_bot_preceded_witness :
    BotPreceded (chatbot genOk [] "hi").history :=
  c4_log_append_only_and_bot_preceded.2 (chatbot genOk [] "hi").history
    (Reachable.step genOk ("hi") [] Reachable.init)

/-- Claim C5: rendering the context is a pure function of the log (hence
idempotent between appends) that lists the turns in insertion order, one
"<role>: <message>" line per turn: the empty log renders empty, a one-turn
log renders its line, appending a turn appends exactly its line after a
newline, and the concrete log [User hi, Bot hello, User bye] renders to
exactly "User: hi\nBot: hello\nUser: bye". -/
theorem c5_render_context :
    renderContext [⟨Role.user, "hi"⟩, ⟨Role.bot, "hello"⟩, ⟨Role.user, "bye"⟩]
      = "User: hi\nBot: hello\nUser: bye"
    ∧ renderContext [] = ""
    ∧ (∀ t, renderContext [t] = fmtTurn t)
    ∧ ∀ h t, h ≠ [] →
        renderContext (h ++ [t]) = renderContext h ++ "\n" ++ fmtTurn t := by
  refine ⟨?_, rfl, fun t => rfl, renderContext_append_one⟩
  rfl

/-- Witness for C5: the append characterization at a concrete log. -/
theorem c5_render_context_witness :
    renderContext ([⟨Role.user, "hi"⟩] ++ [⟨Role.bot, "yo"⟩])
      = renderContext [⟨Role.user, "hi"⟩] ++ "\n" ++ fmtTurn ⟨Role.bot, "yo"⟩ :=
  c5_render_context.2.2.2 [⟨Role.user, "hi"⟩] ⟨Role.bot, "yo"⟩ (by decide)

/-- Claim C6: an Analyze click with zero uploaded files shows a visible
error, issues no generation call, and leaves the cache untouched. -/
theorem c6_analyze_no_files (w : PdfWorld) (gen : String → String) (st : Cache)
    (jd : String) :
    analyzeClick w gen st [] jd
      = ⟨st, [UIEvent.uiError ("Please upload at least one PDF file.")], []⟩ := rfl

/-- Claim C7: whenever analysis reaches the generation collaborator, the one
prompt sent is the fixed instruction header, the job description, and the
successfully extracted (nonempty) texts in upload order separated by blank
lines, with a trailing blank line. -/
theorem c7_prompt_concatenation (w : PdfWorld) (gen : String → String) (st : Cache)
    (files : List Content) (jd : String) (h : CacheConsistent w st)
    (hne : successTexts w files ≠ []) :
    (generate_text w gen st files jd).genPrompts
      = [buildPrompt jd
          (String.intercalate "\n\n" (successTexts w files) ++ "\n\n")] := by
  rw [generate_text_call w gen st files jd h hne,
    joinTerminated_eq_intercalate (successTexts w files) hne]

/-- Witness for C7 at two concrete uploads that extract "alpha", "beta". -/
theorem c7_prompt_concatenation_witness :
    (generate_text goodWorld genConst [] [[1], [2]] ("desc")).genPrompts
      = [buildPrompt ("desc")
          (String.intercalate "\n\n" (successTexts goodWorld [[1], [2]]) ++ "\n\n")] :=
  c7_prompt_concatenation goodWorld genConst [] [[1], [2]] ("desc")
    (cacheConsistent_nil goodWorld) (by decide)

/-- Claim C8: with two uploads of which one fails extraction and the other
extracts nonempty text t, the per-file failure does not abort the loop: the
generation prompt is still built and carries exactly t, in either upload
order. -/
theorem c8_failure_does_not_abort (w : PdfWorld) (gen : String → String) (st : Cache)
    (f1 f2 : Content) (jd t : String) (h : CacheConsistent w st)
    (h1 : (extractBody w f1).text = none)
    (h2 : (extractBody w f2).text = some t) (ht : t ≠ "") :
    (generate_text w gen st [f1, f2] jd).genPrompts = [buildPrompt jd (t ++ "\n\n")]
    ∧ (generate_text w gen st [f2, f1] jd).genPrompts
        = [buildPrompt jd (t ++ "\n\n")] := by
  have hs1 : successTexts w [f1, f2] = [t] := by
    rw [successTexts_cons_none [f2] h1, successTexts_cons_text [] h2 ht]
    rfl
  have hs2 : successTexts w [f2, f1] = [t] := by
    rw [successTexts_cons_text [f1] h2 ht, successTexts_cons_none [] h1]
    rfl
  have hp1 := generate_text_call w gen st [f1, f2] jd h
    (by rw [hs1]; exact List.cons_ne_nil t [])
  have hp2 := generate_text_call w gen st [f2, f1] jd h
    (by rw [hs2]; exact List.cons_ne_nil t [])
  rw [hs1] at hp1
  rw [hs2] at hp2
  constructor
  · rw [hp1]
    simp [joinTerminated]
  · rw [hp2]
    simp [joinTerminated]

/-- Witness for C8: file [0] fails, file [1] extracts "beta". -/
theorem c8_failure_does_not_abort_witness :
    (generate_text mixedWorld genConst [] [[0], [1]] ("jd")).genPrompts
      = [buildPrompt ("jd") ("beta" ++ "\n\n")]
    ∧ (generate_text mixedWorld genConst [] [[1], [0]] ("jd")).genPrompts
      = [buildPrompt ("jd") ("beta" ++ "\n\n")] :=
  c8_failure_does_not_abort mixedWorld genConst [] [0] [1] ("jd") ("beta")
    (cacheConsistent_nil mixedWorld) (by decide) (by decide) (by decide)

/-- Claim C9: the extraction operation is total towards its caller — every
internal failure is caught — and in every session-consistent cache state a
call returns either a full success with no error report, or the absent pair
(None, None) together with exactly one reported error; the absent result is
therefore the only failure path the caller can observe. -/
theorem c9_extraction_total_shape (w : PdfWorld) (st : Cache) (c : Content)
    (h : CacheConsistent w st) :
    (∃ t fh, (extract_text_from_pdf w st c).out = ⟨some t, some fh, []⟩)
    ∨ (∃ e, (extract_text_from_pdf w st c).out
        = ⟨none, none, [UIEvent.uiError ("Error reading PDF: " ++ e)]⟩) := by
  rw [extract_out_eq h]
  exact extractBody_cases w c

/-- Witness for C9 at the concrete failing oracle and empty cache. -/
theorem c9_extraction_total_shape_witness :
    (∃ t fh, (extract_text_from_pdf badWorld [] [0]).out = ⟨some t, some fh, []⟩)
    ∨ (∃ e, (extract_text_from_pdf badWorld [] [0]).out
        = ⟨none, none, [UIEvent.uiError ("Error reading PDF: " ++ e)]⟩) :=
  c9_extraction_total_shape badWorld [] [0] (cacheConsistent_nil badWorld)

/-- Claim C10: when every uploaded file fails extraction or yields empty
text, the analysis issues no generation call and produces no analysis
output: only per-file error reports are displayed. -/
theorem c10_no_text_no_generation (w : PdfWorld) (gen : String → String) (st : Cache)
    (files : List Content) (jd : String) (h : CacheConsistent w st)
    (hall : successTexts w files = []) :
    (generate_text w gen st files jd).genPrompts = []
    ∧ ∀ ev ∈ (generate_text w gen st files jd).events, ∃ m, ev = UIEvent.uiError m := by
  obtain ⟨hp, he⟩ := generate_text_no_call w gen st files jd h hall
  obtain ⟨_, _, hevs⟩ := processFiles_spec w files st h
  refine ⟨hp, ?_⟩
  rw [he]
  exact hevs

/-- Witness for C10: a single upload that fails extraction. -/
theorem c10_no_text_no_generation_witness :
    (generate_text badWorld genConst [] [[0]] ("jd")).genPrompts = []
    ∧ ∀ ev ∈ (generate_text badWorld genConst [] [[0]] ("jd")).events,
        ∃ m, ev = UIEvent.uiError m :=
  c10_no_text_no_generation badWorld genConst [] [[0]] ("jd")
    (cacheConsistent_nil badWorld) (by decide)

end Matchify
